import Mathlib

/-!
Verification of the appointment-scheduling core of the
Clinic-Appointment-Management-System repository.

The embedding models, from `clinic_app/models.py`, `clinic_app/views.py`
and `clinic_app/serializers.py`:

* the `Appointment` model with `calculate_end_time`, `clean` and `save`
  (the write-path conflict detector);
* the stored table of appointments as a list of rows (a row is a persisted
  appointment: every non-nullable column is present, `end_time` may be NULL);
* `AppointmentSerializer.validate` (which re-runs `clean` on a freshly
  constructed, unsaved instance);
* the `available_slots` view (parameter checks, reference resolution,
  availability-window lookup, end-time resolution for loaded appointments,
  and the 15-minute slot walk).

Time is modelled in whole minutes: an instant is an `Int` counting minutes
from an epoch midnight, so a calendar date is `t / 1440` (Euclidean division)
and the wall-clock minute of day is `t % 1440`.  Django `TimeField` values
become minutes of a day (`0 ≤ m < 1440`), and
`datetime.combine(date, time)` becomes `day * 1440 + m`.
-/

namespace Clinic

/-- Appointment status, from `Appointment.STATUS_CHOICES`. -/
inductive Status where
  | scheduled
  | completed
  | cancelled
  | noShow
deriving DecidableEq, Repr

/-- A `VisitType` row: id, `duration_minutes` and owning clinic. -/
structure VisitType where
  id : Nat
  durationMinutes : Nat
  clinic : Nat
deriving DecidableEq, Repr

/-- A persisted `Appointment` row.  All non-nullable columns are present;
`end_time` is nullable (`null=True`) and may be NULL (`none`). -/
structure Row where
  pk : Nat
  patient : Nat
  doctor : Nat
  clinic : Nat
  visitType : VisitType
  scheduledTime : Int
  endTime : Option Int
  status : Status
  notes : String
deriving DecidableEq, Repr

/-- An in-memory `Appointment` instance before validation: foreign keys and
`scheduled_time` may be unset (`None` in Python), `pk` is absent for an
unsaved instance. -/
structure Appointment where
  pk : Option Nat
  patient : Option Nat
  doctor : Option Nat
  clinic : Option Nat
  visitType : Option VisitType
  scheduledTime : Option Int
  endTime : Option Int
  status : Status
  notes : String
deriving DecidableEq, Repr

/-- Errors raised by validation (`ValidationError` in Django): a missing
required field, or the overlap message of `Appointment.clean`, which
carries `overlapping.first().scheduled_time` and
`overlapping.first().end_time`. -/
inductive SaveError where
  | fieldRequired
  | overlap (conflictStart : Int) (conflictEnd : Option Int)
deriving DecidableEq, Repr

/-- `Appointment.calculate_end_time`: set
`end_time = scheduled_time + timedelta(minutes=visit_type.duration_minutes)`
when `visit_type` and `scheduled_time` are set and `end_time` is not. -/
def Appointment.calculate_end_time (a : Appointment) : Appointment :=
  match a.visitType, a.scheduledTime, a.endTime with
  | some vt, some st, none =>
      { a with endTime := some (st + (vt.durationMinutes : Int)) }
  | _, _, _ => a

/-- The row filter of the overlap queryset in `Appointment.clean`:
`Appointment.objects.filter(doctor=self.doctor, status="scheduled")
 .exclude(pk=self.pk if self.pk else None)
 .filter(scheduled_time__lt=self.end_time, end_time__gt=self.scheduled_time)`.
When the instance has no pk, `exclude(pk=None)` matches no row (no stored
row has a NULL pk), so nothing is excluded.  A stored row whose `end_time`
is NULL never satisfies `end_time__gt` (SQL NULL comparison). -/
def conflictsWithRow (doctor : Nat) (excludePk : Option Nat)
    (st et : Int) (r : Row) : Bool :=
  r.doctor == doctor && r.status == Status.scheduled &&
  (match excludePk with
   | some pk => !(r.pk == pk)
   | none => true) &&
  decide (r.scheduledTime < et) &&
  (match r.endTime with
   | some e => decide (e > st)
   | none => false)

/-- `.first()` on the overlap queryset: `Appointment.Meta.ordering` is
`["scheduled_time"]`, so `first()` returns a row with minimal
`scheduled_time` (the earliest stored conflicting row). -/
def firstByScheduledTime : List Row → Option Row
  | [] => none
  | r :: rs =>
      some (rs.foldl
        (fun b x => if x.scheduledTime < b.scheduledTime then x else b) r)

/-- `Appointment.clean`: recompute a missing end time, then, when `doctor`,
`scheduled_time` and `end_time` are all set, query the stored scheduled
appointments of the same doctor (excluding the instance's own pk) that
overlap `[scheduled_time, end_time)`; raise a `ValidationError` carrying
the first such row's bounds if any exists.  Returns the (possibly
end-time-completed) instance on success. -/
def Appointment.clean (db : List Row) (a0 : Appointment) :
    Except SaveError Appointment :=
  let a := a0.calculate_end_time
  match a.doctor, a.scheduledTime, a.endTime with
  | some d, some st, some et =>
      let overlapping := db.filter (conflictsWithRow d a.pk st et)
      match firstByScheduledTime overlapping with
      | some r => .error (.overlap r.scheduledTime r.endTime)
      | none => .ok a
  | _, _, _ => .ok a

/-- The field-validation part of `full_clean` (`clean_fields`): every
non-nullable column (`patient`, `doctor`, `clinic`, `visit_type`,
`scheduled_time`) must be set; `end_time` is nullable. -/
def Appointment.clean_fields (a : Appointment) : Except SaveError Unit :=
  match a.patient, a.doctor, a.clinic, a.visitType, a.scheduledTime with
  | some _, some _, some _, some _, some _ => .ok ()
  | _, _, _, _, _ => .error .fieldRequired

/-- `full_clean`: `clean_fields` then the model's `clean`. -/
def Appointment.full_clean (db : List Row) (a : Appointment) :
    Except SaveError Appointment :=
  match a.clean_fields with
  | .error e => .error e
  | .ok _ => Appointment.clean db a

/-- Materialise a validated instance as a stored row (all required fields
present), with the given primary key. -/
def Appointment.toRow (a : Appointment) (pk : Nat) : Option Row :=
  match a.patient, a.doctor, a.clinic, a.visitType, a.scheduledTime with
  | some p, some d, some c, some vt, some st =>
      some ⟨pk, p, d, c, vt, st, a.endTime, a.status, a.notes⟩
  | _, _, _, _, _ => none

/-- The SQL write of `super().save()`: UPDATE the row with the same pk when
one exists, otherwise INSERT. -/
def writeRow (db : List Row) (r : Row) : List Row :=
  if db.any (fun x => x.pk == r.pk) then
    db.map (fun x => if x.pk == r.pk then r else x)
  else
    db ++ [r]

/-- `Appointment.save`: run `calculate_end_time`, then `full_clean` (which
raises before any write on failure — the stored table is returned
unchanged), then the SQL write.  A new instance receives the fresh primary
key `newPk`; an instance with a pk keeps it.  Returns the validation
outcome together with the table after the call. -/
def Appointment.save (db : List Row) (a0 : Appointment) (newPk : Nat) :
    Except SaveError Row × List Row :=
  let a := a0.calculate_end_time
  match Appointment.full_clean db a with
  | .error e => (.error e, db)
  | .ok a' =>
      match a'.toRow (a'.pk.getD newPk) with
      | some r => (.ok r, writeRow db r)
      | none => (.error .fieldRequired, db)

/-- The writable field set accepted by `AppointmentSerializer`
(`fields = "__all__"` minus `read_only_fields = ["created_at", "end_time"]`
and the implicit read-only `id`). -/
structure AppointmentData where
  patient : Option Nat
  doctor : Option Nat
  clinic : Option Nat
  visitType : Option VisitType
  scheduledTime : Option Int
  status : Status
  notes : String
deriving DecidableEq, Repr

/-- `AppointmentSerializer.validate`: build a fresh `Appointment(**data)` —
an unsaved instance, so its `pk` is `None` and its `end_time` (a read-only
field, absent from the validated data) is `None` — and run the model's
`clean` against the stored table. -/
def serializerValidate (db : List Row) (data : AppointmentData) :
    Except SaveError AppointmentData :=
  let inst : Appointment :=
    ⟨none, data.patient, data.doctor, data.clinic, data.visitType,
      data.scheduledTime, none, data.status, data.notes⟩
  match Appointment.clean db inst with
  | .error e => .error e
  | .ok _ => .ok data

/-- A `DoctorClinicAvailability` row: doctor, clinic, ISO day of week
(1 = Monday … 7 = Sunday) and the window's wall-clock start/end times as
minutes of a day.  `unique_together = ["doctor", "clinic", "day_of_week"]`
is assumed of the stored table where needed. -/
structure Window where
  doctor : Nat
  clinic : Nat
  dayOfWeek : Int
  startTime : Nat
  endTime : Nat
deriving DecidableEq, Repr

/-- The collaborator store visible to the `available_slots` view: the id
sets of the reference tables, the availability windows, the stored
appointments, and the external date parser (`datetime.strptime(date_str,
"%Y-%m-%d").date()`, modelled as an opaque partial map from strings to day
numbers). -/
structure Env where
  doctors : List Nat
  clinics : List Nat
  visitTypes : List VisitType
  windows : List Window
  appointments : List Row
  parseDate : String → Option Int

/-- The calendar date of an instant (Euclidean division, so the floor). -/
def dateOf (t : Int) : Int := t / 1440

/-- `date.isoweekday()`: Monday = 1 … Sunday = 7.  Day 0 of the epoch is a
Thursday (ISO 4). -/
def isoWeekday (day : Int) : Int := (day + 3) % 7 + 1

/-- Python `int(s)` on a decimal string, as performed by the id coercion
of `objects.get(id=...)`: a non-empty all-digit string yields its value,
anything else raises `ValueError` (modelled as `none`). -/
def parseIntStr (s : String) : Option Nat :=
  if s.data ≠ [] ∧ ∀ c ∈ s.data, c.isDigit then
    some (s.data.foldl (fun n c => n * 10 + (c.toNat - 48)) 0)
  else none

/-- `Doctor.objects.get(id=doctor_id)` with a string id: the id must parse
as an integer (otherwise `int()` raises `ValueError`) and a row with that
id must exist (otherwise `DoesNotExist`); both are caught by the view's
`except` clause. -/
def lookupId (table : List Nat) (s : String) : Option Nat :=
  match parseIntStr s with
  | none => none
  | some i => if table.contains i then some i else none

/-- `VisitType.objects.get(id=visit_type_id)`, as `lookupId`. -/
def lookupVisitType (table : List VisitType) (s : String) : Option VisitType :=
  match parseIntStr s with
  | none => none
  | some i => table.find? (fun vt => vt.id == i)

/-- End-time resolution for a loaded appointment (views.py lines 362–369):
a missing `end_time` is recomputed as
`scheduled_time + timedelta(minutes=visit_type.duration_minutes)`
(`visit_type` is a non-nullable column, so it is always available). -/
def resolveEnd (r : Row) : Int :=
  match r.endTime with
  | some e => e
  | none => r.scheduledTime + (r.visitType.durationMinutes : Int)

/-- The conflict test of the slot walk: the candidate `[s, e)` conflicts
with some loaded interval `(as, ae)` iff `s < ae and e > as` (the inner
`for`/`break` is an existence check). -/
def hasConflict (apps : List (Int × Int)) (s e : Int) : Bool :=
  apps.any (fun ap => decide (s < ap.2) && decide (e > ap.1))

/-- `%H:%M` formatting of a minute of day (`strftime` zero-pads both
fields to two digits). -/
def fmtHHMM (m : Nat) : String :=
  ⟨[Nat.digitChar (m / 60 / 10), Nat.digitChar (m / 60 % 10), ':',
    Nat.digitChar (m % 60 / 10), Nat.digitChar (m % 60 % 10)]⟩

/-- `current_time.strftime("%H:%M")` for an instant. -/
def fmtInstant (t : Int) : String := fmtHHMM (t % 1440).toNat

/-- The slot walk (views.py lines 381–408): while
`current_time + slot_duration <= end_time_value`, append the formatted
start when no loaded interval conflicts, then advance by 15 minutes. -/
def slotLoop (apps : List (Int × Int)) (dur weV : Int) (t : Int) :
    List String :=
  if _h : t + dur ≤ weV then
    let rest := slotLoop apps dur weV (t + 15)
    if hasConflict apps t (t + dur) then rest else fmtInstant t :: rest
  else
    []
termination_by (weV - dur + 15 - t).toNat
decreasing_by omega

/-- The candidate grid of the slot walk: the same loop as `slotLoop`, but
returning the candidate start instants themselves (used to state what the
walk enumerates). -/
def slotTimes (dur weV : Int) (t : Int) : List Int :=
  if _h : t + dur ≤ weV then t :: slotTimes dur weV (t + 15) else []
termination_by (weV - dur + 15 - t).toNat
decreasing_by omega

/-- The response of the `available_slots` view: HTTP status, the `error`
field of a rejection, and the `available_slots` field of a success. -/
structure Response where
  status : Nat
  errorMsg : Option String
  available_slots : Option (List String)
deriving DecidableEq, Repr

/-- `DoctorClinicAvailability.objects.get(doctor=..., clinic=...,
day_of_week=...)`, returning the unique window when it exists
(`unique_together` guarantees at most one). -/
def windowFor (env : Env) (d c : Nat) (dow : Int) : Option Window :=
  env.windows.find? (fun w =>
    w.doctor == d && w.clinic == c && w.dayOfWeek == dow)

/-- The loaded appointments of the slot walk (views.py lines 357–369): the
doctor's stored rows of the queried date with status `scheduled`, ordered
by `scheduled_time`, as (start, resolved end) interval pairs. -/
def loadedIntervals (env : Env) (d : Nat) (day : Int) :
    List (Int × Int) :=
  ((env.appointments.filter (fun r =>
      r.doctor == d && dateOf r.scheduledTime == day &&
      r.status == Status.scheduled)).mergeSort (fun r1 r2 =>
        decide (r1.scheduledTime ≤ r2.scheduledTime))).map
    (fun r => (r.scheduledTime, resolveEnd r))

/-- The `available_slots` view (views.py lines 321–418).  Control flow:
reject with 400 when any of the four query parameters is absent or empty
(Python truthiness of `all([...])`); reject with 400 when the date does
not parse or any of doctor/clinic/visit-type does not resolve; answer
`{"available_slots": []}` with 200 when no availability window exists for
(doctor, clinic, weekday); otherwise load the doctor's scheduled
appointments of that date (ordered by `scheduled_time`), resolve missing
end times, and run the 15-minute slot walk over the window. -/
def available_slots (env : Env)
    (doctor_id clinic_id visit_type_id date_s : Option String) : Response :=
  match doctor_id, clinic_id, visit_type_id, date_s with
  | some ds, some cs, some vs, some dts =>
      if ds == "" || cs == "" || vs == "" || dts == "" then
        ⟨400, some "Missing required parameters", none⟩
      else
        match env.parseDate dts with
        | none => ⟨400, some "invalid date", none⟩
        | some day =>
            match lookupId env.doctors ds with
            | none => ⟨400, some "Doctor matching query does not exist.", none⟩
            | some d =>
                match lookupId env.clinics cs with
                | none =>
                    ⟨400, some "Clinic matching query does not exist.", none⟩
                | some c =>
                    match lookupVisitType env.visitTypes vs with
                    | none =>
                        ⟨400, some "VisitType matching query does not exist.",
                          none⟩
                    | some vt =>
                        match windowFor env d c (isoWeekday day) with
                        | none => ⟨200, none, some []⟩
                        | some w =>
                            let resolved := loadedIntervals env d day
                            let dur : Int := vt.durationMinutes
                            let ws : Int := day * 1440 + (w.startTime : Int)
                            let weV : Int := day * 1440 + (w.endTime : Int)
                            ⟨200, none, some (slotLoop resolved dur weV ws)⟩
  | _, _, _, _ => ⟨400, some "Missing required parameters", none⟩

/-- A concrete store: doctor 7 at clinic 1, one 30-minute visit type,
a Monday availability window 09:00-17:00, no stored appointments, and a
date parser resolving 2024-01-01 (a Monday) to day number 19723. -/
def envC3 : Env :=
  ⟨[7], [1], [⟨1, 30, 1⟩], [⟨7, 1, 1, 540, 1020⟩], [],
    fun s => if s = "2024-01-01" then some 19723 else none⟩

/-! ### Predicates for the write-path invariant -/

/-- Primary keys are unique across the stored table. -/
def pkUnique (db : List Row) : Prop :=
  db.Pairwise (fun r1 r2 => r1.pk ≠ r2.pk)

/-- Any doctor's `scheduled` rows are pairwise non-overlapping under the
half-open rule: two scheduled rows of the same doctor with resolved ends
`[s1, e1)` and `[s2, e2)` never satisfy `s1 < e2 ∧ s2 < e1`. -/
def scheduledNonOverlapping (db : List Row) : Prop :=
  ∀ r1 ∈ db, ∀ r2 ∈ db, r1.pk ≠ r2.pk → r1.doctor = r2.doctor →
    r1.status = Status.scheduled → r2.status = Status.scheduled →
    ∀ e1, r1.endTime = some e1 → ∀ e2, r2.endTime = some e2 →
      ¬(r1.scheduledTime < e2 ∧ r2.scheduledTime < e1)

/-- The in-memory instance obtained by loading a stored row (same pk, same
field values), as used for a no-op re-save. -/
def Appointment.ofRow (r : Row) : Appointment :=
  ⟨some r.pk, some r.patient, some r.doctor, some r.clinic, some r.visitType,
    some r.scheduledTime, r.endTime, r.status, r.notes⟩

/-! ### Helper lemmas about `calculate_end_time` -/

theorem calc_of_endTime_some (a : Appointment) (e : Int)
    (h : a.endTime = some e) : a.calculate_end_time = a := by
  cases hvt : a.visitType <;> cases hst : a.scheduledTime <;>
    simp [Appointment.calculate_end_time, hvt, hst, h]

theorem calc_pk (a : Appointment) : a.calculate_end_time.pk = a.pk := by
  cases hvt : a.visitType <;> cases hst : a.scheduledTime <;>
    cases het : a.endTime <;>
    simp [Appointment.calculate_end_time, hvt, hst, het]

theorem calc_doctor (a : Appointment) :
    a.calculate_end_time.doctor = a.doctor := by
  cases hvt : a.visitType <;> cases hst : a.scheduledTime <;>
    cases het : a.endTime <;>
    simp [Appointment.calculate_end_time, hvt, hst, het]

theorem calc_patient (a : Appointment) :
    a.calculate_end_time.patient = a.patient := by
  cases hvt : a.visitType <;> cases hst : a.scheduledTime <;>
    cases het : a.endTime <;>
    simp [Appointment.calculate_end_time, hvt, hst, het]

theorem calc_clinic (a : Appointment) :
    a.calculate_end_time.clinic = a.clinic := by
  cases hvt : a.visitType <;> cases hst : a.scheduledTime <;>
    cases het : a.endTime <;>
    simp [Appointment.calculate_end_time, hvt, hst, het]

theorem calc_visitType (a : Appointment) :
    a.calculate_end_time.visitType = a.visitType := by
  cases hvt : a.visitType <;> cases hst : a.scheduledTime <;>
    cases het : a.endTime <;>
    simp [Appointment.calculate_end_time, hvt, hst, het]

theorem calc_scheduledTime (a : Appointment) :
    a.calculate_end_time.scheduledTime = a.scheduledTime := by
  cases hvt : a.visitType <;> cases hst : a.scheduledTime <;>
    cases het : a.endTime <;>
    simp [Appointment.calculate_end_time, hvt, hst, het]

theorem calc_status (a : Appointment) :
    a.calculate_end_time.status = a.status := by
  cases hvt : a.visitType <;> cases hst : a.scheduledTime <;>
    cases het : a.endTime <;>
    simp [Appointment.calculate_end_time, hvt, hst, het]

theorem calc_notes (a : Appointment) :
    a.calculate_end_time.notes = a.notes := by
  cases hvt : a.visitType <;> cases hst : a.scheduledTime <;>
    cases het : a.endTime <;>
    simp [Appointment.calculate_end_time, hvt, hst, het]

theorem calc_idem (a : Appointment) :
    a.calculate_end_time.calculate_end_time = a.calculate_end_time := by
  cases hvt : a.visitType <;> cases hst : a.scheduledTime <;>
    cases het : a.endTime <;>
    simp [Appointment.calculate_end_time, hvt, hst, het]

theorem calc_endTime_isSome (a : Appointment) (vt : VisitType) (st : Int)
    (hvt : a.visitType = some vt) (hst : a.scheduledTime = some st) :
    ∃ e, a.calculate_end_time.endTime = some e := by
  cases het : a.endTime <;>
    simp [Appointment.calculate_end_time, hvt, hst, het]

/-! ### Helper lemmas about the overlap queryset -/

theorem foldl_min_mem (xs : List Row) (b : Row) :
    xs.foldl (fun b x => if x.scheduledTime < b.scheduledTime then x else b) b
      = b ∨
    xs.foldl (fun b x => if x.scheduledTime < b.scheduledTime then x else b) b
      ∈ xs := by
  induction xs generalizing b with
  | nil => exact Or.inl rfl
  | cons x xs ih =>
      simp only [List.foldl_cons]
      rcases ih (if x.scheduledTime < b.scheduledTime then x else b) with h | h
      · rw [h]
        by_cases hx : x.scheduledTime < b.scheduledTime
        · simp [hx]
        · simp [hx]
      · exact Or.inr (List.mem_cons_of_mem _ h)

theorem firstByScheduledTime_mem {l : List Row} {r : Row}
    (h : firstByScheduledTime l = some r) : r ∈ l := by
  cases l with
  | nil => simp [firstByScheduledTime] at h
  | cons x xs =>
      simp only [firstByScheduledTime, Option.some.injEq] at h
      rcases foldl_min_mem xs x with h' | h' <;> rw [h] at h'
      · rw [h']; exact List.mem_cons_self x xs
      · exact List.mem_cons_of_mem _ h'

theorem firstByScheduledTime_none_iff (l : List Row) :
    firstByScheduledTime l = none ↔ l = [] := by
  cases l <;> simp [firstByScheduledTime]

/-- Unfolding of `Appointment.clean` once the instance's resolved doctor,
start and end are known. -/
theorem clean_resolved (db : List Row) (a : Appointment) (d : Nat)
    (st et : Int)
    (hd : a.calculate_end_time.doctor = some d)
    (hst : a.calculate_end_time.scheduledTime = some st)
    (het : a.calculate_end_time.endTime = some et) :
    Appointment.clean db a =
      match firstByScheduledTime (db.filter (conflictsWithRow d a.pk st et))
        with
      | some r => .error (.overlap r.scheduledTime r.endTime)
      | none => .ok a.calculate_end_time := by
  unfold Appointment.clean
  simp only [hd, hst, het, calc_pk]

/-! ### C2: half-open overlap rule of the conflict predicate -/

/-- C2: The conflict predicate uses the half-open overlap rule: a
candidate `[start, end)` conflicts with an existing scheduled interval
`[s, e)` of the same doctor (not excluded by pk) iff `s < end ∧ e > start`.
In particular a candidate `[10:00, 10:30)` does not conflict with an
existing `[10:30, 11:00)` (touching endpoints), while it does conflict
with an existing `[10:15, 10:45)` (times in minutes of day: 10:00 = 600,
10:30 = 630, 10:15 = 615, 10:45 = 645, 11:00 = 660). -/
theorem C2_conflict_half_open (d : Nat) (excl : Option Nat) (st et : Int)
    (r : Row) (e : Int)
    (hd : r.doctor = d) (hs : r.status = Status.scheduled)
    (hexcl : ∀ pk, excl = some pk → r.pk ≠ pk)
    (he : r.endTime = some e) :
    (conflictsWithRow d excl st et r = true ↔
      (r.scheduledTime < et ∧ e > st)) ∧
    conflictsWithRow 7 none 600 630
      ⟨1, 1, 7, 1, ⟨1, 30, 1⟩, 630, some 660, Status.scheduled, ""⟩
      = false ∧
    conflictsWithRow 7 none 600 630
      ⟨2, 1, 7, 1, ⟨1, 30, 1⟩, 615, some 645, Status.scheduled, ""⟩
      = true := by
  refine ⟨?_, by decide, by decide⟩
  cases excl with
  | none => simp [conflictsWithRow, hd, hs, he]
  | some pk =>
      have hne := hexcl pk rfl
      simp [conflictsWithRow, hd, hs, he, hne]

/-- Witness for C2 at a concrete input. -/
theorem C2_conflict_half_open_witness :
    ((⟨3, 1, 7, 1, ⟨1, 30, 1⟩, 615, some 645, Status.scheduled, ""⟩ :
        Row).doctor = 7 ∧
      (⟨3, 1, 7, 1, ⟨1, 30, 1⟩, 615, some 645, Status.scheduled, ""⟩ :
        Row).status = Status.scheduled ∧
      (⟨3, 1, 7, 1, ⟨1, 30, 1⟩, 615, some 645, Status.scheduled, ""⟩ :
        Row).endTime = some 645) ∧
    ((conflictsWithRow 7 none 600 630
        ⟨3, 1, 7, 1, ⟨1, 30, 1⟩, 615, some 645, Status.scheduled, ""⟩
        = true ↔
      ((615 : Int) < 630 ∧ (645 : Int) > 600)) ∧
      conflictsWithRow 7 none 600 630
        ⟨1, 1, 7, 1, ⟨1, 30, 1⟩, 630, some 660, Status.scheduled, ""⟩
        = false ∧
      conflictsWithRow 7 none 600 630
        ⟨2, 1, 7, 1, ⟨1, 30, 1⟩, 615, some 645, Status.scheduled, ""⟩
        = true) :=
  ⟨⟨rfl, rfl, rfl⟩,
    C2_conflict_half_open 7 none 600 630
      ⟨3, 1, 7, 1, ⟨1, 30, 1⟩, 615, some 645, Status.scheduled, ""⟩ 645
      rfl rfl (by intro pk h; cases h) rfl⟩

/-! ### C4: status gating and doctor isolation -/

/-- C4: Only rows of the same doctor with status `scheduled` can cause a
conflict: a row with status `cancelled`, `completed` or `no_show` never
satisfies the conflict predicate regardless of times (so booking an
identical interval for the same doctor immediately after cancellation
succeeds: `clean` accepts any candidate against a table whose rows are all
non-scheduled), and a row of a different doctor never satisfies the
predicate. -/
theorem C4_status_gating_doctor_isolation :
    (∀ (d : Nat) (excl : Option Nat) (st et : Int) (r : Row),
      r.status ≠ Status.scheduled → conflictsWithRow d excl st et r = false)
    ∧
    (∀ (d : Nat) (excl : Option Nat) (st et : Int) (r : Row),
      r.doctor ≠ d → conflictsWithRow d excl st et r = false)
    ∧
    (∀ (db : List Row) (a : Appointment),
      (∀ r ∈ db, r.status ≠ Status.scheduled) →
      ∃ a', Appointment.clean db a = .ok a') := by
  refine ⟨?_, ?_, ?_⟩
  · intro d excl st et r hs
    simp only [conflictsWithRow]
    have : (r.status == Status.scheduled) = false := by
      simpa using hs
    simp [this]
  · intro d excl st et r hd
    simp only [conflictsWithRow]
    have : (r.doctor == d) = false := by simpa using hd
    simp [this]
  · intro db a hall
    unfold Appointment.clean
    cases hd : a.calculate_end_time.doctor with
    | none => exact ⟨a.calculate_end_time, by simp [hd]⟩
    | some d =>
        cases hst : a.calculate_end_time.scheduledTime with
        | none => exact ⟨a.calculate_end_time, by simp [hd, hst]⟩
        | some st =>
            cases het : a.calculate_end_time.endTime with
            | none => exact ⟨a.calculate_end_time, by simp [hd, hst, het]⟩
            | some et =>
                refine ⟨a.calculate_end_time, ?_⟩
                have hfilter :
                    db.filter
                      (conflictsWithRow d a.calculate_end_time.pk st et)
                      = [] := by
                  rw [List.filter_eq_nil_iff]
                  intro r hr
                  have hs := hall r hr
                  simp only [conflictsWithRow]
                  have : (r.status == Status.scheduled) = false := by
                    simpa using hs
                  simp [this]
                simp [hd, hst, het, hfilter, firstByScheduledTime]

/-- Witness for C4 at concrete inputs: a cancelled row at the identical
interval `[600, 630)` never conflicts, a different doctor's identical row
never conflicts, and `clean` accepts a candidate against a table holding
only a cancelled row at the same interval. -/
theorem C4_status_gating_doctor_isolation_witness :
    conflictsWithRow 7 none 600 630
      ⟨1, 1, 7, 1, ⟨1, 30, 1⟩, 600, some 630, Status.cancelled, ""⟩
      = false ∧
    conflictsWithRow 7 none 600 630
      ⟨1, 1, 8, 1, ⟨1, 30, 1⟩, 600, some 630, Status.scheduled, ""⟩
      = false ∧
    ∃ a', Appointment.clean
      [⟨1, 1, 7, 1, ⟨1, 30, 1⟩, 600, some 630, Status.cancelled, ""⟩]
      ⟨none, some 1, some 7, some 1, some ⟨1, 30, 1⟩, some 600, none,
        Status.scheduled, ""⟩ = .ok a' :=
  ⟨C4_status_gating_doctor_isolation.1 7 none 600 630
      ⟨1, 1, 7, 1, ⟨1, 30, 1⟩, 600, some 630, Status.cancelled, ""⟩
      (by decide),
    C4_status_gating_doctor_isolation.2.1 7 none 600 630
      ⟨1, 1, 8, 1, ⟨1, 30, 1⟩, 600, some 630, Status.scheduled, ""⟩
      (by decide),
    C4_status_gating_doctor_isolation.2.2
      [⟨1, 1, 7, 1, ⟨1, 30, 1⟩, 600, some 630, Status.cancelled, ""⟩]
      ⟨none, some 1, some 7, some 1, some ⟨1, 30, 1⟩, some 600, none,
        Status.scheduled, ""⟩
      (by decide)⟩

/-! ### C8: behaviour on an inverted candidate interval -/

/-- C8 (counterexample): the conflict detector performs no `start < end`
sanity check and has no `InvalidInterval` error kind.  A candidate with
`scheduled_time = 660 ≥ end_time = 600` is passed through the same overlap
filter and, against an empty table, validation silently succeeds. -/
theorem C8_counterexample :
    Appointment.clean []
      ⟨none, some 1, some 1, some 1, some ⟨1, 30, 1⟩, some 660, some 600,
        Status.scheduled, ""⟩ =
      .ok ⟨none, some 1, some 1, some 1, some ⟨1, 30, 1⟩, some 660, some 600,
        Status.scheduled, ""⟩ ∧
    (600 : Int) ≤ 660 := ⟨rfl, by decide⟩

/-- C8 (amended): `Appointment.clean` never raises on an inverted
candidate interval: with resolved `start ≥ end`, the candidate goes
through the ordinary overlap filter, and when no stored row satisfies the
filter the write is silently accepted — there is no `InvalidInterval`
failure. -/
theorem C8_inverted_interval_accepted (db : List Row) (a : Appointment)
    (d : Nat) (st et : Int)
    (hd : a.calculate_end_time.doctor = some d)
    (hst : a.calculate_end_time.scheduledTime = some st)
    (het : a.calculate_end_time.endTime = some et)
    (_hinv : et ≤ st)
    (hnoc : ∀ r ∈ db, conflictsWithRow d a.pk st et r = false) :
    Appointment.clean db a = .ok a.calculate_end_time := by
  rw [clean_resolved db a d st et hd hst het]
  have hfilter : db.filter (conflictsWithRow d a.pk st et) = [] := by
    rw [List.filter_eq_nil_iff]
    intro r hr
    simp [hnoc r hr]
  rw [hfilter]
  rfl

/-- Witness for C8's amended theorem: the inverted candidate
`[660, 600)` is accepted against an empty table. -/
theorem C8_inverted_interval_accepted_witness :
    ((⟨none, some 1, some 1, some 1, some ⟨1, 30, 1⟩, some 660, some 600,
        Status.scheduled, ""⟩ : Appointment).calculate_end_time.endTime
      = some 600 ∧ (600 : Int) ≤ 660) ∧
    Appointment.clean []
      ⟨none, some 1, some 1, some 1, some ⟨1, 30, 1⟩, some 660, some 600,
        Status.scheduled, ""⟩ =
      .ok (⟨none, some 1, some 1, some 1, some ⟨1, 30, 1⟩, some 660,
        some 600, Status.scheduled, ""⟩ :
          Appointment).calculate_end_time :=
  ⟨⟨rfl, by decide⟩,
    C8_inverted_interval_accepted [] _ 1 660 600 rfl rfl rfl (by decide)
      (by intro r hr; cases hr)⟩

/-! ### C9: overlap errors carry the conflicting interval's bounds -/

/-- C9: whenever validation fails due to overlap, the raised error carries
the `scheduled_time` and `end_time` of a stored row that belongs to the
table and actually satisfies the conflict predicate against the
candidate — the error identifies *which* existing appointment blocks the
write, not merely that a conflict exists. -/
theorem C9_error_carries_bounds (db : List Row) (a : Appointment)
    (s : Int) (e : Option Int)
    (h : Appointment.clean db a = .error (.overlap s e)) :
    ∃ r ∈ db, s = r.scheduledTime ∧ e = r.endTime ∧
      ∃ d st et, a.calculate_end_time.doctor = some d ∧
        a.calculate_end_time.scheduledTime = some st ∧
        a.calculate_end_time.endTime = some et ∧
        conflictsWithRow d a.pk st et r = true := by
  rcases hd : a.calculate_end_time.doctor with _ | d
  · simp only [Appointment.clean, hd] at h
    cases h
  · rcases hst : a.calculate_end_time.scheduledTime with _ | st
    · simp only [Appointment.clean, hd, hst] at h
      cases h
    · rcases het : a.calculate_end_time.endTime with _ | et
      · simp only [Appointment.clean, hd, hst, het] at h
        cases h
      · rw [clean_resolved db a d st et hd hst het] at h
        rcases hfb : firstByScheduledTime
            (db.filter (conflictsWithRow d a.pk st et)) with _ | r
        · rw [hfb] at h; cases h
        · rw [hfb] at h
          have hmem := firstByScheduledTime_mem hfb
          have hpred := (List.mem_filter.mp hmem).2
          have hdb := (List.mem_filter.mp hmem).1
          have hs : r.scheduledTime = s ∧ r.endTime = e := by
            cases h; exact ⟨rfl, rfl⟩
          exact ⟨r, hdb, hs.1.symm, hs.2.symm, d, st, et, rfl, rfl, rfl,
            hpred⟩

/-- Witness for C9: booking `[610, 640)` against a stored scheduled
`[600, 630)` fails with an error carrying `600` and `630`. -/
theorem C9_error_carries_bounds_witness :
    (Appointment.clean
      [⟨1, 1, 7, 1, ⟨1, 30, 1⟩, 600, some 630, Status.scheduled, ""⟩]
      ⟨none, some 2, some 7, some 1, some ⟨1, 30, 1⟩, some 610, none,
        Status.scheduled, ""⟩ = .error (.overlap 600 (some 630))) ∧
    ∃ r ∈ [(⟨1, 1, 7, 1, ⟨1, 30, 1⟩, 600, some 630, Status.scheduled, ""⟩ :
        Row)], (600 : Int) = r.scheduledTime ∧ some 630 = r.endTime ∧
      ∃ d st et,
        (⟨none, some 2, some 7, some 1, some ⟨1, 30, 1⟩, some 610, none,
          Status.scheduled, ""⟩ :
            Appointment).calculate_end_time.doctor = some d ∧
        (⟨none, some 2, some 7, some 1, some ⟨1, 30, 1⟩, some 610, none,
          Status.scheduled, ""⟩ :
            Appointment).calculate_end_time.scheduledTime = some st ∧
        (⟨none, some 2, some 7, some 1, some ⟨1, 30, 1⟩, some 610, none,
          Status.scheduled, ""⟩ :
            Appointment).calculate_end_time.endTime = some et ∧
        conflictsWithRow d none st et r = true :=
  ⟨rfl, C9_error_carries_bounds _ _ 600 (some 630) rfl⟩

/-! ### C10: frame conditions of `calculate_end_time` -/

/-- C10: `calculate_end_time` assigns
`end_time = scheduled_time + visit_type.duration_minutes` only when
`end_time` is unset (and `visit_type` and `scheduled_time` are set); when
`end_time` is already set it modifies no field at all, it is idempotent,
and a pre-set `end_time` — even one inconsistent with the visit type's
duration — is the value the conflict check runs with. -/
theorem C10_calculate_end_time_frame :
    (∀ (a : Appointment) (e : Int), a.endTime = some e →
      a.calculate_end_time = a) ∧
    (∀ (a : Appointment) (vt : VisitType) (st : Int),
      a.visitType = some vt → a.scheduledTime = some st →
      a.endTime = none →
      a.calculate_end_time =
        { a with endTime := some (st + (vt.durationMinutes : Int)) }) ∧
    (∀ a : Appointment,
      a.calculate_end_time.calculate_end_time = a.calculate_end_time) ∧
    (∀ (db : List Row) (a : Appointment) (d : Nat) (st e : Int),
      a.doctor = some d → a.scheduledTime = some st → a.endTime = some e →
      Appointment.clean db a =
        match firstByScheduledTime
            (db.filter (conflictsWithRow d a.pk st e)) with
        | some r => .error (.overlap r.scheduledTime r.endTime)
        | none => .ok a) := by
  refine ⟨calc_of_endTime_some, ?_, calc_idem, ?_⟩
  · intro a vt st hvt hst het
    simp [Appointment.calculate_end_time, hvt, hst, het]
  · intro db a d st e hd hst he
    have hca := calc_of_endTime_some a e he
    have h1 : a.calculate_end_time.doctor = some d := by rw [hca]; exact hd
    have h2 : a.calculate_end_time.scheduledTime = some st := by
      rw [hca]; exact hst
    have h3 : a.calculate_end_time.endTime = some e := by rw [hca]; exact he
    rw [clean_resolved db a d st e h1 h2 h3, hca]

/-- Witness for C10: a pre-set `end_time = 900` (inconsistent with the
30-minute visit type) is preserved verbatim, and the conflict check runs
with `900`: the stored row `[700, 730)` — which only overlaps the
duration-inconsistent interval `[610, 900)`, not `[610, 640)` — blocks
the write. -/
theorem C10_calculate_end_time_frame_witness :
    ((⟨none, some 1, some 7, some 1, some ⟨1, 30, 1⟩, some 610, some 900,
        Status.scheduled, ""⟩ : Appointment).endTime = some 900 ∧
      (⟨none, some 1, some 7, some 1, some ⟨1, 30, 1⟩, some 610, some 900,
        Status.scheduled, ""⟩ : Appointment).calculate_end_time =
        ⟨none, some 1, some 7, some 1, some ⟨1, 30, 1⟩, some 610, some 900,
          Status.scheduled, ""⟩) ∧
    Appointment.clean
      [⟨1, 1, 7, 1, ⟨1, 30, 1⟩, 700, some 730, Status.scheduled, ""⟩]
      ⟨none, some 1, some 7, some 1, some ⟨1, 30, 1⟩, some 610, some 900,
        Status.scheduled, ""⟩ =
      match firstByScheduledTime
          ([(⟨1, 1, 7, 1, ⟨1, 30, 1⟩, 700, some 730, Status.scheduled,
            ""⟩ : Row)].filter (conflictsWithRow 7 none 610 900)) with
      | some r => .error (.overlap r.scheduledTime r.endTime)
      | none => .ok ⟨none, some 1, some 7, some 1, some ⟨1, 30, 1⟩,
          some 610, some 900, Status.scheduled, ""⟩ :=
  ⟨⟨rfl, C10_calculate_end_time_frame.1 _ 900 rfl⟩,
    C10_calculate_end_time_frame.2.2.2 _ _ 7 610 900 rfl rfl rfl⟩

/-! ### More helper lemmas for the write path -/

/-- Propositional characterisation of the conflict predicate. -/
theorem conflictsWithRow_iff (d : Nat) (excl : Option Nat) (st et : Int)
    (x : Row) :
    conflictsWithRow d excl st et x = true ↔
      x.doctor = d ∧ x.status = Status.scheduled ∧
      (∀ pk, excl = some pk → x.pk ≠ pk) ∧
      x.scheduledTime < et ∧ ∃ ex, x.endTime = some ex ∧ ex > st := by
  cases excl <;> cases hxe : x.endTime <;>
    simp [conflictsWithRow, hxe] <;> tauto

/-- With unique primary keys, a stored row is determined by its pk. -/
theorem eq_of_pk_eq {db : List Row} (h : pkUnique db) :
    ∀ r ∈ db, ∀ x ∈ db, x.pk = r.pk → x = r := by
  induction db with
  | nil => simp
  | cons y ys ih =>
      rw [pkUnique, List.pairwise_cons] at h
      intro r hr x hx hpk
      rcases List.mem_cons.mp hr with hr' | hr' <;>
        rcases List.mem_cons.mp hx with hx' | hx'
      · rw [hr', hx']
      · subst hr'; exact absurd hpk.symm (h.1 x hx')
      · subst hx'; exact absurd hpk (h.1 r hr')
      · exact ih h.2 r hr' x hx' hpk

/-- Membership in the table after the SQL write: an element is the written
row, or an untouched old row with a different pk. -/
theorem mem_writeRow {db : List Row} {rnew r' : Row}
    (h : r' ∈ writeRow db rnew) :
    r' = rnew ∨ (r' ∈ db ∧ r'.pk ≠ rnew.pk) := by
  by_cases hc : db.any (fun x => x.pk == rnew.pk)
  · simp only [writeRow, hc, if_pos] at h
    rcases List.mem_map.mp h with ⟨x, hx, hfx⟩
    by_cases hpk : x.pk = rnew.pk
    · left; rw [← hfx]; simp [hpk]
    · right
      have hfx' : (if x.pk == rnew.pk then rnew else x) = x := by
        simp [hpk]
      rw [← hfx, hfx']
      exact ⟨hx, hpk⟩
  · simp only [writeRow, hc, if_neg, not_false_iff] at h
    rcases List.mem_append.mp h with hx | hx
    · right
      refine ⟨hx, ?_⟩
      simp only [List.any_eq_true, not_exists, not_and] at hc
      have := hc r' hx
      simpa using this
    · left; simpa using hx

/-- A no-op rewrite: writing back a row already stored (under unique pks)
leaves the table unchanged. -/
theorem writeRow_self {db : List Row} {r : Row} (hpk : pkUnique db)
    (hr : r ∈ db) : writeRow db r = db := by
  have hc : db.any (fun x => x.pk == r.pk) = true := by
    rw [List.any_eq_true]
    exact ⟨r, hr, by simp⟩
  simp only [writeRow, hc, if_pos]
  have : ∀ x ∈ db, (if x.pk == r.pk then r else x) = x := by
    intro x hx
    by_cases hpk' : x.pk = r.pk
    · have := eq_of_pk_eq hpk r hr x hx hpk'
      simp [hpk', this]
    · simp [hpk']
  calc db.map (fun x => if x.pk == r.pk then r else x)
      = db.map id := List.map_congr_left this
    _ = db := List.map_id db

/-! ### C5: self-exclusion on update -/

/-- C5 (counterexample): the exclusion of the record's own identifier does
NOT hold through the serializer's validate hook.  The table holds the
scheduled appointment pk 1 at `[600, 630)`; re-validating the *same*
record's unchanged data through `AppointmentSerializer.validate` (a no-op
update) builds a fresh instance without a pk, so the record is not
excluded and validation rejects the update as overlapping itself. -/
theorem C5_counterexample :
    serializerValidate
      [⟨1, 1, 7, 1, ⟨1, 30, 1⟩, 600, some 630, Status.scheduled, ""⟩]
      ⟨some 1, some 7, some 1, some ⟨1, 30, 1⟩, some 600, Status.scheduled,
        ""⟩ =
      .error (.overlap 600 (some 630)) := rfl

/-- C5 (amended): at the model level the conflict check excludes the
record's own pk, so a no-op `Appointment.save` of a persisted scheduled
appointment (unchanged times) passes validation and leaves the table
unchanged.  Through `AppointmentSerializer.validate`, however, the freshly
built instance carries no pk, so the exclusion does not apply: validating
the unchanged data of any stored scheduled row is rejected as overlapping
itself. -/
theorem C5_self_exclusion :
    (∀ (db : List Row) (r : Row) (n : Nat) (e : Int),
      pkUnique db → scheduledNonOverlapping db → r ∈ db →
      r.status = Status.scheduled → r.endTime = some e →
      Appointment.save db (Appointment.ofRow r) n = (.ok r, db)) ∧
    (∀ (db : List Row) (r : Row),
      r ∈ db → r.status = Status.scheduled →
      (∀ e, r.endTime = some e → r.scheduledTime < e) →
      r.endTime ≠ none →
      0 < r.visitType.durationMinutes →
      ∃ err, serializerValidate db
        ⟨some r.patient, some r.doctor, some r.clinic, some r.visitType,
          some r.scheduledTime, r.status, r.notes⟩ = .error err) := by
  constructor
  · intro db r n e hpk hinv hr hs he
    have hend : (Appointment.ofRow r).endTime = some e := he
    have hcalc := calc_of_endTime_some (Appointment.ofRow r) e hend
    have hfilter :
        db.filter (conflictsWithRow r.doctor (some r.pk) r.scheduledTime e)
          = [] := by
      rw [List.filter_eq_nil_iff]
      intro x hx hcx
      rw [conflictsWithRow_iff] at hcx
      obtain ⟨hxd, hxs, hxpk, hxlt, ex, hxe, hxgt⟩ := hcx
      by_cases hpkeq : x.pk = r.pk
      · exact hxpk r.pk rfl hpkeq
      · have := hinv x hx r hr hpkeq (by rw [hxd]) hxs hs ex hxe e he
        exact this ⟨hxlt, hxgt⟩
    have hclean : Appointment.clean db (Appointment.ofRow r) =
        .ok (Appointment.ofRow r) := by
      rw [clean_resolved db (Appointment.ofRow r) r.doctor r.scheduledTime e
        (by rw [hcalc]; rfl) (by rw [hcalc]; rfl) (by rw [hcalc]; exact he)]
      rw [show (Appointment.ofRow r).pk = some r.pk from rfl, hfilter, hcalc]
      rfl
    have hfull : Appointment.full_clean db (Appointment.ofRow r) =
        .ok (Appointment.ofRow r) := by
      unfold Appointment.full_clean Appointment.clean_fields
      exact hclean
    have htr : (Appointment.ofRow r).toRow
        ((Appointment.ofRow r).pk.getD n) = some r := by
      unfold Appointment.toRow Appointment.ofRow
      simp
    unfold Appointment.save
    simp only [hcalc, hfull, htr]
    rw [writeRow_self hpk hr]
  · intro db r hr hs hlt hne hdur
    rcases hre : r.endTime with _ | e
    · exact absurd hre hne
    have hcd : (⟨none, some r.patient, some r.doctor, some r.clinic,
        some r.visitType, some r.scheduledTime, none, r.status, r.notes⟩ :
          Appointment).calculate_end_time =
        ⟨none, some r.patient, some r.doctor, some r.clinic,
          some r.visitType, some r.scheduledTime,
          some (r.scheduledTime + (r.visitType.durationMinutes : Int)),
          r.status, r.notes⟩ := rfl
    have hclean : ∃ err, Appointment.clean db
        (⟨none, some r.patient, some r.doctor, some r.clinic,
          some r.visitType, some r.scheduledTime, none, r.status,
          r.notes⟩ : Appointment) = .error err := by
      rw [clean_resolved db _ r.doctor r.scheduledTime
        (r.scheduledTime + (r.visitType.durationMinutes : Int))
        (by rw [hcd]) (by rw [hcd]) (by rw [hcd])]
      rw [show (⟨none, some r.patient, some r.doctor, some r.clinic,
          some r.visitType, some r.scheduledTime, none, r.status,
          r.notes⟩ : Appointment).pk = none from rfl]
      have hmem : r ∈ db.filter (conflictsWithRow r.doctor none
          r.scheduledTime
          (r.scheduledTime + (r.visitType.durationMinutes : Int))) := by
        rw [List.mem_filter]
        refine ⟨hr, ?_⟩
        rw [conflictsWithRow_iff]
        refine ⟨rfl, hs, ?_, by omega, e, hre, hlt e hre⟩
        intro pk h
        cases h
      rcases hfb : firstByScheduledTime (db.filter
          (conflictsWithRow r.doctor none r.scheduledTime
            (r.scheduledTime + (r.visitType.durationMinutes : Int)))) with
          _ | r'
      · rw [firstByScheduledTime_none_iff] at hfb
        rw [hfb] at hmem
        cases hmem
      · exact ⟨.overlap r'.scheduledTime r'.endTime, rfl⟩
    obtain ⟨err, herr⟩ := hclean
    refine ⟨err, ?_⟩
    have hsv : serializerValidate db
        ⟨some r.patient, some r.doctor, some r.clinic, some r.visitType,
          some r.scheduledTime, r.status, r.notes⟩ =
        (match Appointment.clean db (⟨none, some r.patient, some r.doctor,
            some r.clinic, some r.visitType, some r.scheduledTime, none,
            r.status, r.notes⟩ : Appointment) with
          | .error e => .error e
          | .ok _ => .ok (⟨some r.patient, some r.doctor, some r.clinic,
              some r.visitType, some r.scheduledTime, r.status, r.notes⟩ :
                AppointmentData)) := rfl
    rw [hsv, herr]

/-- Witness for C5's amended theorem at a concrete table: a no-op model
save of the stored row succeeds and leaves the table unchanged, while
serializer validation of the same unchanged data is rejected. -/
theorem C5_self_exclusion_witness :
    Appointment.save
      [⟨1, 1, 7, 1, ⟨1, 30, 1⟩, 600, some 630, Status.scheduled, ""⟩]
      (Appointment.ofRow
        ⟨1, 1, 7, 1, ⟨1, 30, 1⟩, 600, some 630, Status.scheduled, ""⟩) 5 =
      (.ok ⟨1, 1, 7, 1, ⟨1, 30, 1⟩, 600, some 630, Status.scheduled, ""⟩,
        [⟨1, 1, 7, 1, ⟨1, 30, 1⟩, 600, some 630, Status.scheduled, ""⟩]) ∧
    ∃ err, serializerValidate
      [⟨1, 1, 7, 1, ⟨1, 30, 1⟩, 600, some 630, Status.scheduled, ""⟩]
      ⟨some 1, some 7, some 1, some ⟨1, 30, 1⟩, some 600, Status.scheduled,
        ""⟩ = .error err := by
  constructor
  · refine C5_self_exclusion.1
      [⟨1, 1, 7, 1, ⟨1, 30, 1⟩, 600, some 630, Status.scheduled, ""⟩]
      ⟨1, 1, 7, 1, ⟨1, 30, 1⟩, 600, some 630, Status.scheduled, ""⟩ 5 630
      (by simp [pkUnique]) ?_ (by simp) rfl rfl
    intro r1 h1 r2 h2 hne hd hs1 hs2 e1 he1 e2 he2
    simp only [List.mem_singleton] at h1 h2
    rw [h1, h2] at hne
    exact absurd rfl hne
  · refine C5_self_exclusion.2
      [⟨1, 1, 7, 1, ⟨1, 30, 1⟩, 600, some 630, Status.scheduled, ""⟩]
      ⟨1, 1, 7, 1, ⟨1, 30, 1⟩, 600, some 630, Status.scheduled, ""⟩
      (by simp) rfl ?_ (by simp) (by decide)
    intro e he
    cases he
    decide

/-! ### Helper lemmas for `save` -/

theorem clean_fields_ok (a : Appointment) (u : Unit)
    (h : a.clean_fields = .ok u) :
    (∃ p, a.patient = some p) ∧ (∃ d, a.doctor = some d) ∧
    (∃ c, a.clinic = some c) ∧ (∃ vt, a.visitType = some vt) ∧
    (∃ st, a.scheduledTime = some st) := by
  cases hp : a.patient <;> cases hd : a.doctor <;> cases hc : a.clinic <;>
    cases hvt : a.visitType <;> cases hst : a.scheduledTime <;>
    simp only [Appointment.clean_fields, hp, hd, hc, hvt, hst] at h <;>
    simp_all

theorem full_clean_ok {db : List Row} {a a2 : Appointment}
    (h : Appointment.full_clean db a = .ok a2) :
    a.clean_fields = .ok () ∧ Appointment.clean db a = .ok a2 := by
  unfold Appointment.full_clean at h
  rcases hcf : a.clean_fields with e | u
  · rw [hcf] at h; cases h
  · rw [hcf] at h
    cases u
    exact ⟨rfl, h⟩

theorem clean_ok_no_conflict {db : List Row} {a a2 : Appointment}
    {d : Nat} {st et : Int}
    (hd : a.calculate_end_time.doctor = some d)
    (hst : a.calculate_end_time.scheduledTime = some st)
    (het : a.calculate_end_time.endTime = some et)
    (h : Appointment.clean db a = .ok a2) :
    a2 = a.calculate_end_time ∧
    ∀ x ∈ db, conflictsWithRow d a.pk st et x = false := by
  rw [clean_resolved db a d st et hd hst het] at h
  rcases hfb : firstByScheduledTime
      (db.filter (conflictsWithRow d a.pk st et)) with _ | r
  · rw [hfb] at h
    refine ⟨by cases h; rfl, ?_⟩
    rw [firstByScheduledTime_none_iff] at hfb
    intro x hx
    by_contra hcx
    have : x ∈ db.filter (conflictsWithRow d a.pk st et) := by
      rw [List.mem_filter]
      exact ⟨hx, by simpa using hcx⟩
    rw [hfb] at this
    cases this
  · rw [hfb] at h
    cases h

theorem toRow_eq (a : Appointment) (pk p d c : Nat) (vt : VisitType)
    (st : Int)
    (hp : a.patient = some p) (hd : a.doctor = some d)
    (hc : a.clinic = some c) (hvt : a.visitType = some vt)
    (hst : a.scheduledTime = some st) :
    a.toRow pk = some ⟨pk, p, d, c, vt, st, a.endTime, a.status, a.notes⟩
    := by
  unfold Appointment.toRow
  simp only [hp, hd, hc, hvt, hst]

/-! ### C1: the per-doctor non-overlap invariant at each write -/

/-- C1: Every successful `Appointment.save` (create or update — the write
path runs `full_clean`, hence `clean`) preserves the invariant that any
doctor's `scheduled` appointments are pairwise non-overlapping under the
half-open rule; a failed validation leaves the stored table unchanged; and
a write whose candidate interval conflicts with a stored scheduled row of
the same doctor is rejected with a `ValidationError`. -/
theorem C1_write_invariant (db : List Row) (a : Appointment) (newPk : Nat)
    (hinv : scheduledNonOverlapping db) :
    (∀ r db', Appointment.save db a newPk = (.ok r, db') →
      scheduledNonOverlapping db') ∧
    (∀ e, (Appointment.save db a newPk).1 = .error e →
      (Appointment.save db a newPk).2 = db) ∧
    (∀ d st et, a.calculate_end_time.doctor = some d →
      a.calculate_end_time.scheduledTime = some st →
      a.calculate_end_time.endTime = some et →
      (∃ x ∈ db, conflictsWithRow d a.pk st et x = true) →
      ∃ e, (Appointment.save db a newPk).1 = .error e) := by
  refine ⟨?_, ?_, ?_⟩
  · intro r db' hsave
    simp only [Appointment.save] at hsave
    rcases hfc : Appointment.full_clean db a.calculate_end_time
        with e1 | a2
    · simp [hfc] at hsave
    · simp only [hfc] at hsave
      rcases htr : a2.toRow (a2.pk.getD newPk) with _ | r0
      · simp [htr] at hsave
      · simp only [htr, Prod.mk.injEq, Except.ok.injEq] at hsave
        obtain ⟨hr0, hdb'⟩ := hsave
        subst hr0
        subst hdb'
        obtain ⟨hcf, hclean⟩ := full_clean_ok hfc
        obtain ⟨⟨p, hp⟩, ⟨d, hd⟩, ⟨c, hc⟩, ⟨vt, hvt⟩, ⟨st, hst⟩⟩ :=
          clean_fields_ok _ _ hcf
        obtain ⟨et, het⟩ := calc_endTime_isSome a vt st
          (by rw [← calc_visitType]; exact hvt)
          (by rw [← calc_scheduledTime]; exact hst)
        have hidem := calc_idem a
        obtain ⟨ha2, hnoc⟩ := clean_ok_no_conflict
          (a := a.calculate_end_time)
          (by rw [hidem]; exact hd) (by rw [hidem]; exact hst)
          (by rw [hidem]; exact het) hclean
        subst ha2
        rw [hidem] at htr
        rw [toRow_eq _ _ p d c vt st hp hd hc hvt hst] at htr
        have hr0eq : r0 = ⟨a.calculate_end_time.pk.getD newPk, p, d, c, vt,
            st, a.calculate_end_time.endTime, a.calculate_end_time.status,
            a.calculate_end_time.notes⟩ := (Option.some.inj htr).symm
        have hr0end : r0.endTime = a.calculate_end_time.endTime := by
          rw [hr0eq]
        have hr0st : r0.scheduledTime = st := by rw [hr0eq]
        have hr0d : r0.doctor = d := by rw [hr0eq]
        have hr0pk : r0.pk = a.calculate_end_time.pk.getD newPk := by
          rw [hr0eq]
        intro r1 h1 r2 h2 hpkne hdoc hs1 hs2 e1 he1 e2 he2
        rcases mem_writeRow h1 with h1' | ⟨h1', h1pk⟩ <;>
          rcases mem_writeRow h2 with h2' | ⟨h2', h2pk⟩
        · subst h1'; subst h2'
          exact absurd rfl hpkne
        · subst h1'
          intro hover
          have he1' : e1 = et := by
            rw [hr0end, het] at he1
            exact (Option.some.inj he1).symm
          have hpred : conflictsWithRow d a.calculate_end_time.pk st et r2
              = true := by
            rw [conflictsWithRow_iff]
            refine ⟨by rw [← hdoc, hr0d], hs2, ?_, he1' ▸ hover.2,
              e2, he2, hr0st ▸ hover.1⟩
            intro pk hpk hq
            apply h2pk
            rw [hq, hr0pk, hpk]
            rfl
          rw [hnoc r2 h2'] at hpred
          cases hpred
        · subst h2'
          intro hover
          have he2' : e2 = et := by
            rw [hr0end, het] at he2
            exact (Option.some.inj he2).symm
          have hpred : conflictsWithRow d a.calculate_end_time.pk st et r1
              = true := by
            rw [conflictsWithRow_iff]
            refine ⟨by rw [hdoc, hr0d], hs1, ?_, he2' ▸ hover.1,
              e1, he1, hr0st ▸ hover.2⟩
            intro pk hpk hq
            apply h1pk
            rw [hq, hr0pk, hpk]
            rfl
          rw [hnoc r1 h1'] at hpred
          cases hpred
        · exact hinv r1 h1' r2 h2' hpkne hdoc hs1 hs2 e1 he1 e2 he2
  · intro e he
    simp only [Appointment.save] at he ⊢
    rcases hfc : Appointment.full_clean db a.calculate_end_time
        with e1 | a2
    · simp [hfc]
    · simp only [hfc] at he ⊢
      rcases htr : a2.toRow (a2.pk.getD newPk) with _ | r0
      · simp [htr]
      · simp [htr] at he
  · intro d st et hd hst het hex
    obtain ⟨x, hx, hpred⟩ := hex
    simp only [Appointment.save]
    rcases hcf : a.calculate_end_time.clean_fields with e1 | u
    · have hfc : Appointment.full_clean db a.calculate_end_time
          = .error e1 := by
        unfold Appointment.full_clean
        rw [hcf]
      simp only [hfc]
      exact ⟨e1, rfl⟩
    · have hcr := clean_resolved db a.calculate_end_time d st et
        (by rw [calc_idem]; exact hd) (by rw [calc_idem]; exact hst)
        (by rw [calc_idem]; exact het)
      rw [calc_pk] at hcr
      have hmem : x ∈ db.filter (conflictsWithRow d a.pk st et) := by
        rw [List.mem_filter]; exact ⟨hx, hpred⟩
      rcases hfb : firstByScheduledTime
          (db.filter (conflictsWithRow d a.pk st et)) with _ | rr
      · rw [firstByScheduledTime_none_iff] at hfb
        rw [hfb] at hmem
        cases hmem
      · have hcl : Appointment.clean db a.calculate_end_time
            = .error (.overlap rr.scheduledTime rr.endTime) := by
          rw [hcr, hfb]
        have hfcl : Appointment.full_clean db a.calculate_end_time
            = .error (.overlap rr.scheduledTime rr.endTime) := by
          unfold Appointment.full_clean
          cases u
          rw [hcf, hcl]
        simp only [hfcl]
        exact ⟨.overlap rr.scheduledTime rr.endTime, rfl⟩

/-- Witness for C1 at a concrete table: a touching booking `[630, 660)`
next to the stored `[600, 630)` is accepted and the resulting table still
satisfies the invariant, while an overlapping booking `[610, 640)` is
rejected with a `ValidationError` and the table is unchanged. -/
theorem C1_write_invariant_witness :
    scheduledNonOverlapping
      [⟨1, 1, 7, 1, ⟨1, 30, 1⟩, 600, some 630, Status.scheduled, ""⟩,
        ⟨2, 1, 7, 1, ⟨1, 30, 1⟩, 630, some 660, Status.scheduled, ""⟩] ∧
    (Appointment.save
      [⟨1, 1, 7, 1, ⟨1, 30, 1⟩, 600, some 630, Status.scheduled, ""⟩]
      ⟨none, some 1, some 7, some 1, some ⟨1, 30, 1⟩, some 610, none,
        Status.scheduled, ""⟩ 3).1 = .error (.overlap 600 (some 630)) ∧
    (Appointment.save
      [⟨1, 1, 7, 1, ⟨1, 30, 1⟩, 600, some 630, Status.scheduled, ""⟩]
      ⟨none, some 1, some 7, some 1, some ⟨1, 30, 1⟩, some 610, none,
        Status.scheduled, ""⟩ 3).2 =
      [⟨1, 1, 7, 1, ⟨1, 30, 1⟩, 600, some 630, Status.scheduled, ""⟩] := by
  have hinv1 : scheduledNonOverlapping
      [⟨1, 1, 7, 1, ⟨1, 30, 1⟩, 600, some 630, Status.scheduled, ""⟩] := by
    intro r1 h1 r2 h2 hne hd hs1 hs2 e1 he1 e2 he2
    simp only [List.mem_singleton] at h1 h2
    rw [h1, h2] at hne
    exact absurd rfl hne
  refine ⟨?_, ?_, ?_⟩
  · exact (C1_write_invariant
      [⟨1, 1, 7, 1, ⟨1, 30, 1⟩, 600, some 630, Status.scheduled, ""⟩]
      ⟨none, some 1, some 7, some 1, some ⟨1, 30, 1⟩, some 630, none,
        Status.scheduled, ""⟩ 2 hinv1).1 _ _ rfl
  · exact rfl
  · exact (C1_write_invariant
      [⟨1, 1, 7, 1, ⟨1, 30, 1⟩, 600, some 630, Status.scheduled, ""⟩]
      ⟨none, some 1, some 7, some 1, some ⟨1, 30, 1⟩, some 610, none,
        Status.scheduled, ""⟩ 3 hinv1).2.1 (.overlap 600 (some 630)) rfl

/-! ### C6: no availability window means empty success -/

/-- C6: when all four query inputs resolve but no availability window
exists for (doctor, clinic, ISO weekday of the date), the view answers a
successful response whose `available_slots` list is empty, not an
error. -/
theorem C6_no_window_empty_success (env : Env) (ds cs vs dts : String)
    (day : Int) (d c : Nat) (vt : VisitType)
    (h1 : ds ≠ "") (h2 : cs ≠ "") (h3 : vs ≠ "") (h4 : dts ≠ "")
    (hdate : env.parseDate dts = some day)
    (hdoc : lookupId env.doctors ds = some d)
    (hcl : lookupId env.clinics cs = some c)
    (hvt : lookupVisitType env.visitTypes vs = some vt)
    (hw : windowFor env d c (isoWeekday day) = none) :
    available_slots env (some ds) (some cs) (some vs) (some dts) =
      ⟨200, none, some []⟩ := by
  simp [available_slots, h1, h2, h3, h4, hdate, hdoc, hcl, hvt, hw]

/-- Witness for C6: a doctor with a window only on Monday (ISO 1), queried
for a Tuesday (day 19724), yields a 200 response with an empty list. -/
theorem C6_no_window_empty_success_witness :
    available_slots
      ⟨[7], [1], [⟨1, 30, 1⟩], [⟨7, 1, 1, 540, 1020⟩], [],
        fun s => if s = "2024-01-02" then some 19724 else none⟩
      (some "7") (some "1") (some "1") (some "2024-01-02") =
      ⟨200, none, some []⟩ :=
  C6_no_window_empty_success _ "7" "1" "1" "2024-01-02" 19724 7 1 ⟨1, 30, 1⟩
    (by decide) (by decide) (by decide) (by decide)
    (by simp) (by decide) (by decide) (by decide) (by decide)

/-! ### C7: missing or unresolvable inputs are rejected -/

/-- C7: a slot query missing any of the four inputs (absent or empty, per
Python truthiness), with an unparseable date, or with a doctor/clinic/
visit-type reference that does not resolve, is rejected with a 400 error
and never carries a (partial or empty) slot list. -/
theorem C7_invalid_inputs_rejected (env : Env)
    (p1 p2 p3 p4 : Option String)
    (hbad :
      p1 = none ∨ p2 = none ∨ p3 = none ∨ p4 = none ∨
      p1 = some "" ∨ p2 = some "" ∨ p3 = some "" ∨ p4 = some "" ∨
      (∃ s, p4 = some s ∧ env.parseDate s = none) ∨
      (∃ s, p1 = some s ∧ lookupId env.doctors s = none) ∨
      (∃ s, p2 = some s ∧ lookupId env.clinics s = none) ∨
      (∃ s, p3 = some s ∧ lookupVisitType env.visitTypes s = none)) :
    (available_slots env p1 p2 p3 p4).status = 400 ∧
    (available_slots env p1 p2 p3 p4).available_slots = none := by
  rcases p1 with _ | s1
  · simp [available_slots]
  rcases p2 with _ | s2
  · simp [available_slots]
  rcases p3 with _ | s3
  · simp [available_slots]
  rcases p4 with _ | s4
  · simp [available_slots]
  by_cases hemp : (s1 == "" || s2 == "" || s3 == "" || s4 == "") = true
  · simp [available_slots, hemp]
  · rcases hpd : env.parseDate s4 with _ | day
    · simp [available_slots, hemp, hpd]
    · rcases hld : lookupId env.doctors s1 with _ | d
      · simp [available_slots, hemp, hpd, hld]
      · rcases hlc : lookupId env.clinics s2 with _ | c
        · simp [available_slots, hemp, hpd, hld, hlc]
        · rcases hlv : lookupVisitType env.visitTypes s3 with _ | vt
          · simp [available_slots, hemp, hpd, hld, hlc, hlv]
          · exfalso
            simp only [Bool.or_eq_true, beq_iff_eq, not_or] at hemp
            obtain ⟨⟨⟨he1, he2⟩, he3⟩, he4⟩ := hemp
            rcases hbad with h | h | h | h | h | h | h | h | h | h | h | h
            · exact Option.noConfusion h
            · exact Option.noConfusion h
            · exact Option.noConfusion h
            · exact Option.noConfusion h
            · exact he1 (Option.some.inj h)
            · exact he2 (Option.some.inj h)
            · exact he3 (Option.some.inj h)
            · exact he4 (Option.some.inj h)
            · obtain ⟨s, hs, hn⟩ := h
              rw [← Option.some.inj hs] at hn
              rw [hn] at hpd
              cases hpd
            · obtain ⟨s, hs, hn⟩ := h
              rw [← Option.some.inj hs] at hn
              rw [hn] at hld
              cases hld
            · obtain ⟨s, hs, hn⟩ := h
              rw [← Option.some.inj hs] at hn
              rw [hn] at hlc
              cases hlc
            · obtain ⟨s, hs, hn⟩ := h
              rw [← Option.some.inj hs] at hn
              rw [hn] at hlv
              cases hlv

/-- Witness for C7: omitting the date, and separately pointing at a
non-existent doctor id, both yield a 400 response with no slot list. -/
theorem C7_invalid_inputs_rejected_witness :
    ((available_slots
        ⟨[7], [1], [⟨1, 30, 1⟩], [], [], fun _ => none⟩
        (some "7") (some "1") (some "1") none).status = 400 ∧
      (available_slots
        ⟨[7], [1], [⟨1, 30, 1⟩], [], [], fun _ => none⟩
        (some "7") (some "1") (some "1") none).available_slots = none) ∧
    ((available_slots
        ⟨[7], [1], [⟨1, 30, 1⟩], [], [],
          fun s => if s = "2024-01-01" then some 19723 else none⟩
        (some "99") (some "1") (some "1")
        (some "2024-01-01")).status = 400 ∧
      (available_slots
        ⟨[7], [1], [⟨1, 30, 1⟩], [], [],
          fun s => if s = "2024-01-01" then some 19723 else none⟩
        (some "99") (some "1") (some "1")
        (some "2024-01-01")).available_slots = none) :=
  ⟨C7_invalid_inputs_rejected _ _ _ _ none
      (Or.inr (Or.inr (Or.inr (Or.inl rfl)))),
    C7_invalid_inputs_rejected _ _ _ _ _
      (Or.inr (Or.inr (Or.inr (Or.inr (Or.inr (Or.inr (Or.inr (Or.inr
        (Or.inr (Or.inl ⟨"99", rfl, by decide⟩))))))))))⟩

/-! ### Lemmas about the slot walk -/

theorem slotLoop_eq_filter_map (apps : List (Int × Int)) (dur weV : Int) :
    ∀ t, slotLoop apps dur weV t =
      ((slotTimes dur weV t).filter
        (fun u => !hasConflict apps u (u + dur))).map fmtInstant := by
  intro t
  generalize hn : (weV - dur + 15 - t).toNat = n
  induction n using Nat.strong_induction_on generalizing t with
  | _ n ih =>
    rw [slotLoop, slotTimes]
    by_cases h : t + dur ≤ weV
    · simp only [h, dite_true]
      rw [ih ((weV - dur + 15 - (t + 15)).toNat) (by omega) (t + 15) rfl]
      by_cases hc : hasConflict apps t (t + dur)
      · simp [hc]
      · simp [hc]
    · simp [h]

theorem mem_slotTimes (dur weV : Int) :
    ∀ t u, u ∈ slotTimes dur weV t ↔
      ∃ k : Nat, u = t + 15 * k ∧ u + dur ≤ weV := by
  intro t
  generalize hn : (weV - dur + 15 - t).toNat = n
  induction n using Nat.strong_induction_on generalizing t with
  | _ n ih =>
    intro u
    rw [slotTimes]
    by_cases h : t + dur ≤ weV
    · simp only [h, dite_true, List.mem_cons]
      rw [ih ((weV - dur + 15 - (t + 15)).toNat) (by omega) (t + 15) rfl]
      constructor
      · rintro (rfl | ⟨k, hu, hb⟩)
        · exact ⟨0, by omega, h⟩
        · exact ⟨k + 1, by omega, hb⟩
      · rintro ⟨k, hu, hb⟩
        cases k with
        | zero => left; omega
        | succ k' => right; exact ⟨k', by omega, hb⟩
    · simp only [h, dite_false, List.not_mem_nil, false_iff]
      rintro ⟨k, hu, hb⟩
      have : (0 : Int) ≤ 15 * (k : Int) := by positivity
      omega

theorem slotTimes_sorted (dur weV : Int) :
    ∀ t, (slotTimes dur weV t).Pairwise (· < ·) ∧
      ∀ u ∈ slotTimes dur weV t, t ≤ u := by
  intro t
  generalize hn : (weV - dur + 15 - t).toNat = n
  induction n using Nat.strong_induction_on generalizing t with
  | _ n ih =>
    rw [slotTimes]
    by_cases h : t + dur ≤ weV
    · simp only [h, dite_true]
      obtain ⟨hp, hb⟩ :=
        ih ((weV - dur + 15 - (t + 15)).toNat) (by omega) (t + 15) rfl
      refine ⟨List.pairwise_cons.mpr ⟨?_, hp⟩, ?_⟩
      · intro u hu
        have := hb u hu
        omega
      · intro u hu
        rcases List.mem_cons.mp hu with rfl | hu'
        · omega
        · have := hb u hu'
          omega
    · simp [h]

theorem hasConflict_false_iff (apps : List (Int × Int)) (s e : Int) :
    hasConflict apps s e = false ↔
      ∀ p ∈ apps, ¬(s < p.2 ∧ p.1 < e) := by
  simp only [hasConflict, List.any_eq_false, Bool.and_eq_true,
    decide_eq_true_eq]

/-! ### Strict monotonicity of `%H:%M` formatting -/

theorem digitChar_lt {a b : Nat} (ha : a < 10) (hb : b < 10)
    (hab : a < b) : Nat.digitChar a < Nat.digitChar b := by
  have key : ∀ x : Fin 10, ∀ y : Fin 10, x.val < y.val →
      Nat.digitChar x.val < Nat.digitChar y.val := by decide
  exact key ⟨a, ha⟩ ⟨b, hb⟩ hab

theorem fmtHHMM_lt {m1 m2 : Nat} (h12 : m1 < m2) (h2 : m2 < 1440) :
    fmtHHMM m1 < fmtHHMM m2 := by
  rw [String.lt_iff_toList_lt]
  have e1 : (fmtHHMM m1).toList =
      [Nat.digitChar (m1 / 60 / 10), Nat.digitChar (m1 / 60 % 10), ':',
        Nat.digitChar (m1 % 60 / 10), Nat.digitChar (m1 % 60 % 10)] := rfl
  have e2 : (fmtHHMM m2).toList =
      [Nat.digitChar (m2 / 60 / 10), Nat.digitChar (m2 / 60 % 10), ':',
        Nat.digitChar (m2 % 60 / 10), Nat.digitChar (m2 % 60 % 10)] := rfl
  rw [e1, e2]
  show List.Lex (· < ·) _ _
  rcases Nat.lt_or_ge (m1 / 60) (m2 / 60) with hh | hh
  · rcases Nat.lt_or_ge (m1 / 60 / 10) (m2 / 60 / 10) with ht | ht
    · exact List.Lex.rel (digitChar_lt (by omega) (by omega) ht)
    · have hteq : m1 / 60 / 10 = m2 / 60 / 10 := by omega
      rw [hteq]
      apply List.Lex.cons
      have hones : m1 / 60 % 10 < m2 / 60 % 10 := by omega
      exact List.Lex.rel (digitChar_lt (by omega) (by omega) hones)
  · have hhe : m1 / 60 = m2 / 60 := by omega
    have hme : m1 % 60 < m2 % 60 := by omega
    rw [hhe]
    apply List.Lex.cons
    apply List.Lex.cons
    apply List.Lex.cons
    rcases Nat.lt_or_ge (m1 % 60 / 10) (m2 % 60 / 10) with ht | ht
    · exact List.Lex.rel (digitChar_lt (by omega) (by omega) ht)
    · have hteq : m1 % 60 / 10 = m2 % 60 / 10 := by omega
      rw [hteq]
      apply List.Lex.cons
      have hones : m1 % 60 % 10 < m2 % 60 % 10 := by omega
      exact List.Lex.rel (digitChar_lt (by omega) (by omega) hones)

theorem fmtInstant_lt {day t1 t2 : Int} (hlb : day * 1440 ≤ t1)
    (hlt : t1 < t2) (hub : t2 < day * 1440 + 1440) :
    fmtInstant t1 < fmtInstant t2 := by
  unfold fmtInstant
  apply fmtHHMM_lt
  · have e1 : t1 % 1440 = t1 - day * 1440 := by omega
    have e2 : t2 % 1440 = t2 - day * 1440 := by omega
    omega
  · omega

theorem pairwise_map_fmtInstant (day : Int) (l : List Int)
    (hb : ∀ u ∈ l, day * 1440 ≤ u ∧ u < day * 1440 + 1440)
    (hp : l.Pairwise (· < ·)) :
    (l.map fmtInstant).Pairwise (· < ·) := by
  induction l with
  | nil => simp
  | cons x xs ih =>
      rw [List.pairwise_cons] at hp
      rw [List.map_cons, List.pairwise_cons]
      constructor
      · intro s hs
        rcases List.mem_map.mp hs with ⟨v, hv, rfl⟩
        exact fmtInstant_lt (hb x (List.mem_cons_self x xs)).1
          (hp.1 v hv) (hb v (List.mem_cons_of_mem x hv)).2
      · exact ih (fun u hu => hb u (List.mem_cons_of_mem x hu)) hp.2

/-! ### C3: the slot enumeration -/

/-- C3: when all inputs resolve and an availability window
`[window_start, window_end)` exists for the ISO weekday of the date, the
view returns exactly the candidates `t = window_start + 15k` (k = 0, 1,
2, … — the step is 15 minutes regardless of the requested duration) such
that `t + duration ≤ window_end` and `[t, t + duration)` overlaps no
loaded scheduled interval of that doctor, formatted by the zero-padded
24-hour `%H:%M` formatter, in strictly ascending string order with no
duplicates; the loaded intervals are exactly the doctor's stored
`scheduled` rows of the queried date with their resolved ends. -/
theorem C3_slot_enumeration (env : Env) (ds cs vs dts : String)
    (day : Int) (d c : Nat) (vt : VisitType) (w : Window)
    (h1 : ds ≠ "") (h2 : cs ≠ "") (h3 : vs ≠ "") (h4 : dts ≠ "")
    (hdate : env.parseDate dts = some day)
    (hdoc : lookupId env.doctors ds = some d)
    (hcl : lookupId env.clinics cs = some c)
    (hvt : lookupVisitType env.visitTypes vs = some vt)
    (hw : windowFor env d c (isoWeekday day) = some w)
    (hwf : w.endTime ≤ 1440)
    (hdur : 0 < vt.durationMinutes) :
    ∃ slots,
      available_slots env (some ds) (some cs) (some vs) (some dts) =
        ⟨200, none, some slots⟩ ∧
      (∀ s, s ∈ slots ↔ ∃ k : Nat,
        day * 1440 + (w.startTime : Int) + 15 * k +
            (vt.durationMinutes : Int) ≤ day * 1440 + (w.endTime : Int) ∧
        (∀ p ∈ loadedIntervals env d day,
          ¬(day * 1440 + (w.startTime : Int) + 15 * k < p.2 ∧
            p.1 < day * 1440 + (w.startTime : Int) + 15 * k +
              (vt.durationMinutes : Int))) ∧
        s = fmtInstant (day * 1440 + (w.startTime : Int) + 15 * k)) ∧
      slots.Pairwise (· < ·) ∧ slots.Nodup ∧
      (∀ p, p ∈ loadedIntervals env d day ↔ ∃ r ∈ env.appointments,
        r.doctor = d ∧ dateOf r.scheduledTime = day ∧
        r.status = Status.scheduled ∧ p = (r.scheduledTime, resolveEnd r))
    := by
  have hpw : (slotLoop (loadedIntervals env d day)
      (vt.durationMinutes : Int) (day * 1440 + (w.endTime : Int))
      (day * 1440 + (w.startTime : Int))).Pairwise (· < ·) := by
    rw [slotLoop_eq_filter_map]
    apply pairwise_map_fmtInstant day
    · intro u hu
      have hu' := (List.mem_filter.mp hu).1
      rw [mem_slotTimes] at hu'
      obtain ⟨k, rfl, hb⟩ := hu'
      omega
    · exact List.Pairwise.filter _ (slotTimes_sorted _ _ _).1
  refine ⟨_, ?_, ?_, hpw, hpw.imp (fun h => ne_of_lt h), ?_⟩
  · simp [available_slots, h1, h2, h3, h4, hdate, hdoc, hcl, hvt, hw]
  · intro s
    rw [slotLoop_eq_filter_map]
    constructor
    · intro hs
      rcases List.mem_map.mp hs with ⟨u, hu, rfl⟩
      obtain ⟨hu1, hu2⟩ := List.mem_filter.mp hu
      rw [mem_slotTimes] at hu1
      obtain ⟨k, rfl, hb⟩ := hu1
      rw [Bool.not_eq_true', hasConflict_false_iff] at hu2
      exact ⟨k, hb, hu2, rfl⟩
    · rintro ⟨k, hb, hnc, rfl⟩
      apply List.mem_map.mpr
      refine ⟨day * 1440 + (w.startTime : Int) + 15 * k, ?_, rfl⟩
      apply List.mem_filter.mpr
      refine ⟨(mem_slotTimes _ _ _ _).mpr ⟨k, rfl, hb⟩, ?_⟩
      rw [Bool.not_eq_true', hasConflict_false_iff]
      exact hnc
  · intro p
    simp only [loadedIntervals, List.mem_map, List.mem_mergeSort,
      List.mem_filter, Bool.and_eq_true, beq_iff_eq]
    constructor
    · rintro ⟨r, ⟨hr, ⟨hd', hday⟩, hst⟩, rfl⟩
      exact ⟨r, hr, hd', hday, hst, rfl⟩
    · rintro ⟨r, hr, hd', hday, hst, rfl⟩
      exact ⟨r, ⟨hr, ⟨hd', hday⟩, hst⟩, rfl⟩

/-- Witness for C3: window 09:00–17:00 with a 30-minute duration and no
bookings yields slots that include `09:00` (k = 0) and `16:30` (k = 30)
and exclude `17:00`, in strictly ascending order without duplicates. -/
theorem C3_slot_enumeration_witness :
    (envC3.parseDate "2024-01-01" = some 19723 ∧
      lookupId envC3.doctors "7" = some 7 ∧
      lookupId envC3.clinics "1" = some 1 ∧
      lookupVisitType envC3.visitTypes "1" = some ⟨1, 30, 1⟩ ∧
      windowFor envC3 7 1 (isoWeekday 19723) = some ⟨7, 1, 1, 540, 1020⟩ ∧
      (⟨7, 1, 1, 540, 1020⟩ : Window).endTime ≤ 1440 ∧
      0 < (⟨1, 30, 1⟩ : VisitType).durationMinutes) ∧
    ∃ slots,
      available_slots envC3 (some "7") (some "1") (some "1")
        (some "2024-01-01") = ⟨200, none, some slots⟩ ∧
      "09:00" ∈ slots ∧ "16:30" ∈ slots ∧ "17:00" ∉ slots ∧
      slots.Pairwise (· < ·) ∧ slots.Nodup := by
  refine ⟨⟨by decide, by decide, by decide, by decide, by decide,
    by decide, by decide⟩, ?_⟩
  obtain ⟨slots, heq, hiff, hpw, hnd, hload⟩ :=
    C3_slot_enumeration envC3 "7" "1" "1" "2024-01-01" 19723 7 1
      ⟨1, 30, 1⟩ ⟨7, 1, 1, 540, 1020⟩
      (by decide) (by decide) (by decide) (by decide)
      (by decide) (by decide) (by decide) (by decide)
      (by decide) (by decide) (by decide)
  have hl : loadedIntervals envC3 7 19723 = [] := by
    simp [loadedIntervals, envC3]
  refine ⟨slots, heq, ?_, ?_, ?_, hpw, hnd⟩
  · apply (hiff _).mpr
    refine ⟨0, by decide, ?_, by decide⟩
    rw [hl]
    intro p hp
    cases hp
  · apply (hiff _).mpr
    refine ⟨30, by decide, ?_, by decide⟩
    rw [hl]
    intro p hp
    cases hp
  · intro hmem
    obtain ⟨k, hb, _, hs⟩ := (hiff _).mp hmem
    have hk : k ≤ 30 := by
      dsimp only at hb
      omega
    interval_cases k <;> exact absurd hs (by decide)

end Clinic
